import Mathlib

/-!
Verification of the abowe-api waitlist service.

The repository has two entry points, `src/api/index.js` (serverless, lazy
connection via the `ensureDBConnection` middleware) and `src/server.js`
(long-running, eager connection at startup).  Their validation and handler
logic is textually identical except for the health route and the admin
listing route (the latter exists only in `src/api/index.js`).

Strings are modelled as lists of characters (`Str`).  Timestamps echoed in
response bodies are omitted from the response records (no claim mentions
them); the `createdAt` field of stored entries is kept, as an abstract `Nat`
clock value supplied by the request context.
-/

/-- JS strings modelled as lists of characters. -/
abbrev Str := List Char

/-- The character class `\s` of JavaScript regular expressions
(ECMA-262 WhiteSpace ∪ LineTerminator): tab, LF, VT, FF, CR, space, NBSP,
Ogham space mark, the U+2000–U+200A range, LS, PS, narrow NBSP, medium
mathematical space, ideographic space and the BOM. -/
def isJsSpace (c : Char) : Bool :=
  let n := c.toNat
  n == 9 || n == 10 || n == 11 || n == 12 || n == 13 || n == 32 ||
  n == 160 || n == 5760 || (8192 ≤ n && n ≤ 8202) || n == 8232 ||
  n == 8233 || n == 8239 || n == 8287 || n == 12288 || n == 65279

/-- `String.prototype.toLowerCase` restricted to one character: ASCII
uppercase letters are shifted down by 32, everything else is unchanged
(the stored emails the claims are about are ASCII). -/
def toLowerCh (c : Char) : Char :=
  if 65 ≤ c.toNat && c.toNat ≤ 90 then Char.ofNat (c.toNat + 32) else c

/-- `String.prototype.toLowerCase`. -/
def jsToLower (s : Str) : Str := s.map toLowerCh

/-- `String.prototype.trim`: strip leading and trailing JS whitespace. -/
def jsTrim (s : Str) : Str :=
  ((s.dropWhile isJsSpace).reverse.dropWhile isJsSpace).reverse

/-- `email.trim().toLowerCase()` — the normalisation applied by both POST
handlers before touching the store (src/api/index.js line 188,
src/server.js line 97). -/
def normalizeEmail (s : Str) : Str := jsToLower (jsTrim s)

/-- A character matched by the regex class `[^\s@]`: not JS whitespace and
not `'@'` (code point 64). -/
def isAtom (c : Char) : Bool := !isJsSpace c && c.toNat != 64

/-- Scans a list for a `'.'` (code point 46) that is not its last element.
Used to decide whether the part after the first character of the domain
can be split as `[^\s@]+ \. [^\s@]+`. -/
def hasDotNotLast : Str → Bool
  | [] => false
  | [_] => false
  | c :: x :: rest => c.toNat == 46 || hasDotNotLast (x :: rest)

/-- The domain side of the regex, `[^\s@]+\.[^\s@]+$`: every character is
in `[^\s@]`, and some `'.'` occurs at an index that is neither 0 nor the
last index (so that both sides of it are nonempty). -/
def domainOk (d : Str) : Bool :=
  d.all isAtom &&
    (match d with
     | [] => false
     | _ :: rest => hasDotNotLast rest)

/-- `validateEmail` of src/api/index.js lines 56–59 and src/server.js
lines 46–49: anchored match of `/^[^\s@]+@[^\s@]+\.[^\s@]+$/`.  Since
`[^\s@]` cannot match `'@'`, the `@` of the pattern necessarily matches
the first `'@'` of the string, so the local part is the maximal
`'@'`-free prefix. -/
def validateEmail (s : Str) : Bool :=
  let l := s.takeWhile (fun c => c.toNat != 64)
  match s.dropWhile (fun c => c.toNat != 64) with
  | _ :: d => !l.isEmpty && l.all isAtom && domainOk d
  | [] => false

/-- Modelled from the spec: the validity shape claimed in §4.1 —
`local-part@domain`, no whitespace anywhere, no `@` inside either part,
and the domain contains at least one `.` (with no condition on where the
dot sits).  Kept separate from `validateEmail` so the two can be
compared. -/
def specValidEmail (s : Str) : Bool :=
  let l := s.takeWhile (fun c => c.toNat != 64)
  match s.dropWhile (fun c => c.toNat != 64) with
  | _ :: d =>
      !l.isEmpty && !d.isEmpty && (l ++ d).all isAtom &&
        d.any (fun c => c.toNat == 46)
  | [] => false

/-- `validateEmail(email)` where `email` came out of `req.body` and may be
`undefined`: `RegExp.prototype.test` coerces `undefined` to the string
`"undefined"`, which the regex rejects (it has no `@`). -/
def validateEmailJS : Option Str → Bool
  | none => validateEmail "undefined".data
  | some s => validateEmail s

example : validateEmail "a@b.com".data = true := by decide
example : validateEmail "A@B.com ".data = false := by decide
example : validateEmail "a@.c".data = false := by decide
example : specValidEmail "a@.c".data = true := by decide
example : validateEmailJS none = false := by decide
example : normalizeEmail "A@B.com ".data = "a@b.com".data := by decide

/-! ## Data model and store -/

/-- A document of the `waitlist` collection (src/api/index.js lines
202–208): the new-entry object plus the `_id` the store assigns at
insertion, modelled as a `Nat` counter. -/
structure Entry where
  email : Str
  createdAt : Nat
  source : Str
  ipAddress : Str
  userAgent : Str
  id : Nat
deriving DecidableEq, Repr

/-- The module state of one entry point: the `db` handle (`connected`
records whether it is set; `cachedClient` of src/api/index.js is set and
cleared together with it) and the contents of the `waitlist` collection. -/
structure DBState where
  connected : Bool
  entries : List Entry
  nextId : Nat
deriving DecidableEq, Repr

/-- Fresh deployment: no connection, empty collection. -/
def initState : DBState := ⟨false, [], 0⟩

/-- Outcome of `collection.insertOne`. `dupKey` is the driver error with
`code === 11000` raised by the unique index on `email` (created at
connection time, src/api/index.js line 45, before any insert runs). -/
inductive InsertResult
  | inserted (id : Nat)
  | dupKey
deriving DecidableEq, Repr

/-- `collection.insertOne(newEntry)` against the unique index on `email`:
rejects the document if an entry with the same email exists, otherwise
appends it with a fresh id. -/
def insertOne (st : DBState) (e : Entry) : InsertResult × DBState :=
  if st.entries.any (fun x => x.email == e.email) then
    (.dupKey, st)
  else
    (.inserted st.nextId,
     { st with entries := st.entries ++ [{ e with id := st.nextId }],
               nextId := st.nextId + 1 })

/-! ## Request contexts and responses -/

/-- Context of a POST /api/waitlist request: `email` is `req.body.email`
(`none` when the field is absent, i.e. `undefined`), plus `req.ip`,
user agent and the current clock value used for `createdAt`. -/
structure AddCtx where
  email : Option Str
  ip : Str
  userAgent : Str
  now : Nat
deriving DecidableEq, Repr

/-- Response of POST /api/waitlist: HTTP status, `success`, `message` and
the optional `data: {id, email}` payload. -/
structure AddRes where
  status : Nat
  success : Bool
  message : Str
  data : Option (Nat × Str)
deriving DecidableEq, Repr

/-- The 400 response of the validation branch (src/api/index.js lines
181–186). -/
def invalidEmailRes : AddRes :=
  ⟨400, false, "Please provide a valid email address".data, none⟩

/-- The 409 response of the pre-insert existence check (src/api/index.js
lines 194–199). -/
def duplicatePrecheckRes : AddRes :=
  ⟨409, false, "This email is already on our waitlist!".data, none⟩

/-- The 409 response of the `error.code === 11000` catch branch
(src/api/index.js lines 227–232). -/
def duplicateKeyRes : AddRes :=
  ⟨409, false, "This email is already on our waitlist!".data, none⟩

/-- The generic 500 response of the catch-all branch (src/api/index.js
lines 234–237). -/
def serverErrorRes : AddRes :=
  ⟨500, false, "Internal server error. Please try again later.".data, none⟩

/-- The POST /api/waitlist handler body (src/api/index.js lines 176–239;
src/server.js lines 85–148 is textually identical).  Validation runs on
the raw body value; only then is the email trimmed and lower-cased.  The
`none` branch after a passed validation models the `TypeError` that
`undefined.trim()` would raise, landing in the catch-all (it is
unreachable, since `validateEmailJS none = false`). -/
def addToWaitlist (st : DBState) (ctx : AddCtx) : AddRes × DBState :=
  if validateEmailJS ctx.email then
    match ctx.email with
    | none => (serverErrorRes, st)
    | some email =>
        let sanitizedEmail := normalizeEmail email
        if st.entries.any (fun x => x.email == sanitizedEmail) then
          (duplicatePrecheckRes, st)
        else
          let newEntry : Entry :=
            { email := sanitizedEmail, createdAt := ctx.now,
              source := "landing-page".data, ipAddress := ctx.ip,
              userAgent := ctx.userAgent, id := 0 }
          match insertOne st newEntry with
          | (.inserted id, st2) =>
              (⟨201, true, "Successfully added to waitlist".data,
                some (id, sanitizedEmail)⟩, st2)
          | (.dupKey, st2) => (duplicateKeyRes, st2)
  else
    (invalidEmailRes, st)

/-- Response of POST /api/waitlist/check. -/
structure CheckRes where
  status : Nat
  success : Bool
  message : Option Str
  found : Option Bool
deriving DecidableEq, Repr

/-- The POST /api/waitlist/check handler body (src/api/index.js lines
242–268; src/server.js lines 151–177 identical).  Read-only: returns no
new state.  The unreachable `none`-after-validation branch models the
caught `TypeError` as in `addToWaitlist`. -/
def checkEmail (st : DBState) (email : Option Str) : CheckRes :=
  if validateEmailJS email then
    match email with
    | none => ⟨500, false, some "Failed to check email".data, none⟩
    | some e =>
        ⟨200, true, none,
         some (st.entries.any (fun x => x.email == normalizeEmail e))⟩
  else
    ⟨400, false, some "Invalid email format".data, none⟩

/-- Response of GET /api/waitlist/stats (timestamp omitted). -/
structure StatsRes where
  status : Nat
  success : Bool
  totalCount : Option Nat
deriving DecidableEq, Repr

/-- The GET /api/waitlist/stats handler body (src/api/index.js lines
89–108): `countDocuments()` over the collection. -/
def statsHandler (st : DBState) : StatsRes :=
  ⟨200, true, some st.entries.length⟩

/-- Response of GET /api/health.  The success shape of the handler has
`status: 'OK'` and a `database` string but no `success` field; the 500
shape produced by the middleware has `success: false` and a `message`
but no `database` field. -/
structure HealthRes where
  status : Nat
  statusText : Option Str
  database : Option Str
  success : Option Bool
  message : Option Str
deriving DecidableEq, Repr

/-- The GET /api/health handler of src/server.js lines 54–60: no
middleware, never fails, reports `db ? 'Connected' : 'Disconnected'`. -/
def healthServer (st : DBState) : HealthRes :=
  ⟨200, some "OK".data,
   some (if st.connected then "Connected".data else "Disconnected".data),
   none, none⟩

/-- `ensureDBConnection` (src/api/index.js lines 62–75): if `db` is unset,
attempt `connectToDatabase()` — `connOk` is the outcome of that attempt
against the external store.  `none` means the middleware answered 500
itself and the handler never ran. -/
def stepConn (st : DBState) (connOk : Bool) : Option DBState :=
  if st.connected then some st
  else if connOk then some { st with connected := true }
  else none

/-- The full GET /api/health route of src/api/index.js lines 80–86:
`ensureDBConnection` then the handler. -/
def healthIndexRoute (st : DBState) (connOk : Bool) : HealthRes × DBState :=
  match stepConn st connOk with
  | none =>
      (⟨500, none, none, some false, some "Database connection failed".data⟩,
       st)
  | some st2 =>
      (⟨200, some "OK".data,
        some (if st2.connected then "Connected".data
              else "Disconnected".data),
        none, none⟩, st2)

/-! ## Admin listing (GET /api/admin/waitlist, src/api/index.js 111–173) -/

/-- Code-point lexicographic order on strings (how the store compares
string fields). -/
def strLE : Str → Str → Bool
  | [], _ => true
  | _ :: _, [] => false
  | a :: as, b :: bs =>
      if a.toNat < b.toNat then true
      else if b.toNat < a.toNat then false
      else strLE as bs

/-- The sortable value a document carries under a field name: numeric
fields on the left, string fields on the right, `none` when the document
has no such field (any `sortBy` outside the schema). -/
def entryKey (f : Str) (e : Entry) : Option (Nat ⊕ Str) :=
  if f = "email".data then some (.inr e.email)
  else if f = "createdAt".data then some (.inl e.createdAt)
  else if f = "source".data then some (.inr e.source)
  else if f = "ipAddress".data then some (.inr e.ipAddress)
  else if f = "userAgent".data then some (.inr e.userAgent)
  else if f = "_id".data then some (.inl e.id)
  else none

/-- Order on sort keys: missing sorts before present (BSON null/missing
first), numbers before strings, otherwise the value orders. -/
def keyLE : Option (Nat ⊕ Str) → Option (Nat ⊕ Str) → Bool
  | none, _ => true
  | some _, none => false
  | some (.inl a), some (.inl b) => a ≤ b
  | some (.inl _), some (.inr _) => true
  | some (.inr _), some (.inl _) => false
  | some (.inr a), some (.inr b) => strLE a b

/-- Document comparison for `.sort({[sortBy]: ord})`: ascending key order
when `ord = 1`, reversed when `ord = -1`. -/
def entryLE (f : Str) (ord : Int) (a b : Entry) : Prop :=
  if ord = 1 then keyLE (entryKey f a) (entryKey f b) = true
  else keyLE (entryKey f b) (entryKey f a) = true

instance (f : Str) (ord : Int) : DecidableRel (entryLE f ord) := by
  intro a b
  unfold entryLE
  infer_instance

/-- The store's sort of the collection by one field and direction
(a stable comparison sort). -/
def sortEntries (f : Str) (ord : Int) (l : List Entry) : List Entry :=
  List.insertionSort (entryLE f ord) l

/-- `Math.ceil(a / b)` for integers `a`, `b` with `b ≠ 0` (JS computes the
exact quotient as a float and rounds up). -/
def jsCeilDiv (a b : Int) : Int := -((-a).fdiv b)

/-- `find({}).sort(..).skip(skip).limit(limit)` materialised: the store
rejects a negative skip value (server error, landing in the handler's
catch); a negative limit means "single batch of that many documents", so
`natAbs` of it is taken. -/
def runFind (l : List Entry) (f : Str) (ord : Int) (skip limit : Int) :
    Except Unit (List Entry) :=
  if skip < 0 then .error ()
  else .ok ((((sortEntries f ord l).drop skip.toNat).take limit.natAbs))

/-- An entry as projected by `.project({email: 1, createdAt: 1, source: 1,
_id: 1})` (src/api/index.js lines 139–144): exactly these four fields,
no `ipAddress`, no `userAgent`. -/
structure Projected where
  id : Nat
  email : Str
  createdAt : Nat
  source : Str
deriving DecidableEq, Repr

/-- The listing projection. -/
def projectEntry (e : Entry) : Projected :=
  ⟨e.id, e.email, e.createdAt, e.source⟩

/-- The `pagination` metadata object of the listing response. -/
structure Pagination where
  currentPage : Int
  totalPages : Int
  totalCount : Nat
  hasNextPage : Bool
  hasPrevPage : Bool
  limit : Int
deriving DecidableEq, Repr

/-- The `sorting` echo object of the listing response. -/
structure SortingEcho where
  sortBy : Str
  sortOrder : Str
deriving DecidableEq, Repr

/-- Response of GET /api/admin/waitlist: the success payload or the 500
error envelope of the catch branch. -/
inductive ListRes
  | ok (entries : List Projected) (pagination : Pagination)
      (sorting : SortingEcho)
  | err (status : Nat) (message : Str)
deriving DecidableEq, Repr

/-- Query string of the listing request.  `page` and `limit` hold the
`parseInt` result (`none` for an absent or non-numeric parameter, whose
`parseInt` is `NaN`); `sortBy` and `sortOrder` are raw strings. -/
structure ListQuery where
  page : Option Int
  limit : Option Int
  sortBy : Option Str
  sortOrder : Option Str
deriving DecidableEq, Repr

/-- `parseInt(x) || d`: `NaN` (here `none`) and `0` are falsy and give the
default, every other number passes through. -/
def parseIntOr (d : Int) : Option Int → Int
  | none => d
  | some n => if n = 0 then d else n

/-- `req.query.sortBy || 'createdAt'`: absent or empty gives the
default. -/
def parseSortBy : Option Str → Str
  | none => "createdAt".data
  | some [] => "createdAt".data
  | some s => s

/-- `req.query.sortOrder === 'asc' ? 1 : -1` (src/api/index.js line
119). -/
def listSortDir (sortOrder : Option Str) : Int :=
  if sortOrder == some "asc".data then 1 else -1

/-- The GET /api/admin/waitlist handler body (src/api/index.js lines
111–173). -/
def listHandler (st : DBState) (q : ListQuery) : ListRes :=
  let page := parseIntOr 1 q.page
  let limit := parseIntOr 50 q.limit
  let sortBy := parseSortBy q.sortBy
  let sortOrder := listSortDir q.sortOrder
  let maxLimit := min limit 100
  let skip := (page - 1) * maxLimit
  let totalCount := st.entries.length
  let totalPages := jsCeilDiv totalCount maxLimit
  match runFind st.entries sortBy sortOrder skip maxLimit with
  | .error _ => .err 500 "Failed to get waitlist entries".data
  | .ok es =>
      .ok (es.map projectEntry)
        ⟨page, totalPages, totalCount, decide (page < totalPages),
         decide (page > 1), maxLimit⟩
        ⟨sortBy, if sortOrder == 1 then "asc".data else "desc".data⟩

/-! ## The operations, and reachable states -/

/-- One inbound request of src/api/index.js; every route is wrapped in
`ensureDBConnection`, whose connection-attempt outcome (when `db` is
unset) is the `connOk` argument. -/
inductive Op
  | add (ctx : AddCtx) (connOk : Bool)
  | check (email : Option Str) (connOk : Bool)
  | stats (connOk : Bool)
  | list (q : ListQuery) (connOk : Bool)
  | health (connOk : Bool)
deriving Repr

/-- State transition of one request.  When the middleware fails, the
handler never runs and the state is unchanged; only the add handler
writes to the collection. -/
def step (st : DBState) : Op → DBState
  | .add ctx connOk =>
      match stepConn st connOk with
      | none => st
      | some st2 => (addToWaitlist st2 ctx).2
  | .check _ connOk => (stepConn st connOk).getD st
  | .stats connOk => (stepConn st connOk).getD st
  | .list _ connOk => (stepConn st connOk).getD st
  | .health connOk => (healthIndexRoute st connOk).2

/-- The state after serving a sequence of requests on a fresh
deployment. -/
def run (ops : List Op) : DBState := ops.foldl step initState

/-! ## Character and string lemmas -/

theorem char_toNat_ofNat_valid (n : Nat) (h : n < 55296) :
    (Char.ofNat n).toNat = n := by
  have hv : n.isValidChar := Or.inl h
  rw [Char.ofNat, dif_pos hv]
  simp [Char.ofNatAux, Char.toNat, UInt32.toNat, BitVec.ofNatLt]

theorem char_eq_of_toNat_eq {c d : Char} (h : c.toNat = d.toNat) : c = d := by
  have h1 : Char.ofNat c.toNat = Char.ofNat d.toNat := by rw [h]
  rwa [Char.ofNat_toNat, Char.ofNat_toNat] at h1

theorem toLowerCh_toNat (c : Char) :
    (toLowerCh c).toNat =
      if 65 ≤ c.toNat ∧ c.toNat ≤ 90 then c.toNat + 32 else c.toNat := by
  unfold toLowerCh
  by_cases h : 65 ≤ c.toNat ∧ c.toNat ≤ 90
  · have hb : (65 ≤ c.toNat && c.toNat ≤ 90) = true := by
      simp [h.1, h.2]
    rw [if_pos hb, if_pos h, char_toNat_ofNat_valid _ (by omega)]
  · have hb : (65 ≤ c.toNat && c.toNat ≤ 90) = false := by
      rw [Bool.and_eq_false_iff]
      rcases Decidable.not_and_iff_or_not.mp h with h1 | h1
      · exact Or.inl (by simpa using h1)
      · exact Or.inr (by simpa using h1)
    rw [if_neg (by simp [hb]), if_neg h]

theorem toLowerCh_idem (c : Char) : toLowerCh (toLowerCh c) = toLowerCh c := by
  apply char_eq_of_toNat_eq
  simp only [toLowerCh_toNat]
  split_ifs <;> omega

theorem isJsSpace_toNat (c : Char) :
    isJsSpace c = true ↔
      (c.toNat = 9 ∨ c.toNat = 10 ∨ c.toNat = 11 ∨ c.toNat = 12 ∨
       c.toNat = 13 ∨ c.toNat = 32 ∨ c.toNat = 160 ∨ c.toNat = 5760 ∨
       (8192 ≤ c.toNat ∧ c.toNat ≤ 8202) ∨ c.toNat = 8232 ∨
       c.toNat = 8233 ∨ c.toNat = 8239 ∨ c.toNat = 8287 ∨
       c.toNat = 12288 ∨ c.toNat = 65279) := by
  simp only [isJsSpace, Bool.or_eq_true, Bool.and_eq_true, beq_iff_eq,
    decide_eq_true_eq]
  tauto

theorem isJsSpace_toLowerCh (c : Char) :
    isJsSpace (toLowerCh c) = isJsSpace c := by
  by_cases h : 65 ≤ c.toNat ∧ c.toNat ≤ 90
  · have h1 : (toLowerCh c).toNat = c.toNat + 32 := by
      rw [toLowerCh_toNat, if_pos h]
    have h2 : isJsSpace (toLowerCh c) = false := by
      rw [← Bool.not_eq_true, isJsSpace_toNat, h1]; omega
    have h3 : isJsSpace c = false := by
      rw [← Bool.not_eq_true, isJsSpace_toNat]; omega
    rw [h2, h3]
  · have h1 : toLowerCh c = c := by
      apply char_eq_of_toNat_eq; rw [toLowerCh_toNat, if_neg h]
    rw [h1]

theorem jsToLower_idem (s : Str) : jsToLower (jsToLower s) = jsToLower s := by
  simp [jsToLower, List.map_map, Function.comp_def, toLowerCh_idem]

theorem dropWhile_eq_self_of_all {p : Char → Bool} {s : Str}
    (h : ∀ c ∈ s, p c = false) : s.dropWhile p = s := by
  cases s with
  | nil => rfl
  | cons c cs => rw [List.dropWhile_cons_of_neg (by simp [h c (by simp)])]

theorem jsTrim_eq_self {s : Str} (h : ∀ c ∈ s, isJsSpace c = false) :
    jsTrim s = s := by
  unfold jsTrim
  rw [dropWhile_eq_self_of_all h,
      dropWhile_eq_self_of_all (by intro c hc; exact h c (by simpa using hc)),
      List.reverse_reverse]

theorem jsToLower_no_space {s : Str} (h : ∀ c ∈ s, isJsSpace c = false) :
    ∀ c ∈ jsToLower s, isJsSpace c = false := by
  intro c hc
  rcases List.mem_map.mp hc with ⟨a, ha, rfl⟩
  rw [isJsSpace_toLowerCh]
  exact h a ha

theorem hasDotNotLast_iff (l : Str) :
    hasDotNotLast l = true ↔ ∃ x y, l = x ++ '.' :: y ∧ y ≠ [] := by
  induction l with
  | nil =>
      constructor
      · intro h; simp [hasDotNotLast] at h
      · rintro ⟨x, y, hxy, -⟩
        exact absurd hxy.symm (by simp)
  | cons c rest ih =>
      cases rest with
      | nil =>
          constructor
          · intro h; simp [hasDotNotLast] at h
          · rintro ⟨x, y, hxy, hy⟩
            cases y with
            | nil => exact absurd rfl hy
            | cons y0 ys =>
                have hl := congrArg List.length hxy
                simp [List.length_append] at hl
                omega
      | cons x rs =>
          simp only [hasDotNotLast, Bool.or_eq_true, beq_iff_eq]
          constructor
          · rintro (hc | h)
            · refine ⟨[], x :: rs, ?_, by simp⟩
              have : c = '.' := char_eq_of_toNat_eq (by rw [hc]; rfl)
              simp [this]
            · rcases ih.mp h with ⟨a, b, hab, hb⟩
              exact ⟨c :: a, b, by simp [hab], hb⟩
          · rintro ⟨a, b, hab, hb⟩
            cases a with
            | nil =>
                left
                have : c = '.' := List.head_eq_of_cons_eq hab
                rw [this]
                decide
            | cons a0 as =>
                right
                apply ih.mpr
                refine ⟨as, b, ?_, hb⟩
                have h2 := List.tail_eq_of_cons_eq hab
                simpa using h2

theorem isAtom_not_space {c : Char} (h : isAtom c = true) :
    isJsSpace c = false := by
  simp only [isAtom, Bool.and_eq_true, Bool.not_eq_true'] at h
  exact h.1

theorem isAtom_not_at {c : Char} (h : isAtom c = true) : c.toNat ≠ 64 := by
  simp only [isAtom, Bool.and_eq_true, bne_iff_ne, ne_eq] at h
  exact h.2

theorem domainOk_iff (d : Str) :
    domainOk d = true ↔
      (∀ c ∈ d, isAtom c = true) ∧
        ∃ x y, d = x ++ '.' :: y ∧ x ≠ [] ∧ y ≠ [] := by
  cases d with
  | nil =>
      simp only [domainOk, List.all_nil, Bool.true_and]
      constructor
      · intro h; simp at h
      · rintro ⟨-, x, y, hxy, hx, -⟩
        exact absurd hxy.symm (by simp)
  | cons c rest =>
      simp only [domainOk, Bool.and_eq_true, List.all_eq_true,
        hasDotNotLast_iff]
      constructor
      · rintro ⟨hall, a, b, hab, hb⟩
        exact ⟨hall, c :: a, b, by simp [hab], by simp, hb⟩
      · rintro ⟨hall, x, y, hxy, hx, hy⟩
        refine ⟨hall, ?_⟩
        cases x with
        | nil => exact absurd rfl hx
        | cons x0 xs =>
            have h2 := List.tail_eq_of_cons_eq hxy
            exact ⟨xs, y, by simpa using h2, hy⟩

theorem takeWhile_append_cons {p : Char → Bool} :
    ∀ (l : Str) (a : Char) (r : Str), (∀ c ∈ l, p c = true) → p a = false →
      (l ++ a :: r).takeWhile p = l ∧ (l ++ a :: r).dropWhile p = a :: r
  | [], a, r, _, ha => by
      simp [List.takeWhile_cons, List.dropWhile_cons, ha]
  | c :: cs, a, r, hl, ha => by
      have hc : p c = true := hl c (by simp)
      have ih := takeWhile_append_cons cs a r (fun d hd => hl d (by simp [hd])) ha
      simp [List.takeWhile_cons, List.dropWhile_cons, hc, ih.1, ih.2]

theorem dropWhile_head_false {p : Char → Bool} {s : Str} {a : Char} {r : Str}
    (h : s.dropWhile p = a :: r) : p a = false := by
  induction s with
  | nil => simp at h
  | cons c cs ih =>
      by_cases hc : p c = true
      · rw [List.dropWhile_cons_of_pos hc] at h; exact ih h
      · rw [List.dropWhile_cons_of_neg hc] at h
        cases h
        exact Bool.not_eq_true _ |>.mp hc

theorem validateEmail_shape (s : Str) :
    validateEmail s = true ↔
      ∃ l x y, s = l ++ '@' :: (x ++ '.' :: y) ∧ l ≠ [] ∧ x ≠ [] ∧ y ≠ [] ∧
        (∀ c ∈ l, isAtom c = true) ∧ (∀ c ∈ x, isAtom c = true) ∧
        (∀ c ∈ y, isAtom c = true) := by
  constructor
  · intro h
    rcases hsplit : s.dropWhile (fun c => c.toNat != 64) with - | ⟨a, d⟩
    · rw [validateEmail, hsplit] at h
      simp at h
    · rw [validateEmail, hsplit] at h
      simp only [Bool.and_eq_true, Bool.not_eq_true', List.isEmpty_eq_false,
        List.all_eq_true] at h
      obtain ⟨⟨hne, hall⟩, hdom⟩ := h
      rcases (domainOk_iff d).mp hdom with ⟨hdall, x, y, hdxy, hx, hy⟩
      have ha : a = '@' := by
        have hqa := dropWhile_head_false hsplit
        simp only [bne_eq_false_iff_eq] at hqa
        exact char_eq_of_toNat_eq (by rw [hqa]; rfl)
      refine ⟨s.takeWhile (fun c => c.toNat != 64), x, y, ?_, ?_, hx, hy, hall, ?_, ?_⟩
      · rw [← hdxy, ← ha, ← hsplit, List.takeWhile_append_dropWhile]
      · intro hcon; rw [hcon] at hne; simp at hne
      · intro c hc; exact hdall c (by simp [hdxy, hc])
      · intro c hc; exact hdall c (by simp [hdxy, hc])
  · rintro ⟨l, x, y, rfl, hl, hx, hy, hla, hxa, hya⟩
    have hq : ∀ c ∈ l, (fun c : Char => c.toNat != 64) c = true := by
      intro c hc
      simpa [bne_iff_ne] using isAtom_not_at (hla c hc)
    have hqa : (fun c : Char => c.toNat != 64) '@' = false := by decide
    have hsplit := takeWhile_append_cons l '@' (x ++ '.' :: y) hq hqa
    rw [validateEmail, hsplit.2]
    simp only [hsplit.1, Bool.and_eq_true, Bool.not_eq_true',
      List.isEmpty_eq_false, List.all_eq_true]
    refine ⟨⟨hl, hla⟩, (domainOk_iff _).mpr ⟨?_, x, y, rfl, hx, hy⟩⟩
    intro c hc
    rcases List.mem_append.mp hc with h1 | h1
    · exact hxa c h1
    · rcases List.mem_cons.mp h1 with rfl | h2
      · decide
      · exact hya c h2

/-! ## Normalisation of validated emails -/

theorem validateEmail_no_space {s : Str} (h : validateEmail s = true) :
    ∀ c ∈ s, isJsSpace c = false := by
  rcases (validateEmail_shape s).mp h with ⟨l, x, y, rfl, -, -, -, hla, hxa, hya⟩
  intro c hc
  rcases List.mem_append.mp hc with h1 | h1
  · exact isAtom_not_space (hla c h1)
  · rcases List.mem_cons.mp h1 with rfl | h2
    · decide
    · rcases List.mem_append.mp h2 with h3 | h3
      · exact isAtom_not_space (hxa c h3)
      · rcases List.mem_cons.mp h3 with rfl | h4
        · decide
        · exact isAtom_not_space (hya c h4)

theorem normalizeEmail_of_valid {s : Str} (h : validateEmail s = true) :
    normalizeEmail s = jsToLower s := by
  rw [normalizeEmail, jsTrim_eq_self (validateEmail_no_space h)]

theorem normalized_stored {s : Str} (h : validateEmail s = true) :
    jsTrim (normalizeEmail s) = normalizeEmail s ∧
      jsToLower (normalizeEmail s) = normalizeEmail s := by
  rw [normalizeEmail_of_valid h]
  exact ⟨jsTrim_eq_self (jsToLower_no_space (validateEmail_no_space h)),
         jsToLower_idem s⟩

/-! ## The storage invariant -/

/-- The invariant of claim C1: normalised emails are pairwise distinct
(at most one entry per normalised email) and every stored email is
already trimmed and lower-cased. -/
def EmailInv (st : DBState) : Prop :=
  st.entries.Pairwise
    (fun a b => normalizeEmail a.email ≠ normalizeEmail b.email) ∧
  ∀ e ∈ st.entries, jsTrim e.email = e.email ∧ jsToLower e.email = e.email

theorem emailInv_norm_fixed {st : DBState} (h : EmailInv st) {e : Entry}
    (he : e ∈ st.entries) : normalizeEmail e.email = e.email := by
  obtain ⟨ht, hl⟩ := h.2 e he
  rw [normalizeEmail, ht, hl]

theorem emailInv_of_entries_eq {st st2 : DBState}
    (he : st2.entries = st.entries) (h : EmailInv st) : EmailInv st2 := by
  unfold EmailInv
  rw [he]
  exact h

theorem stepConn_entries {st st2 : DBState} {c : Bool}
    (h : stepConn st c = some st2) : st2.entries = st.entries := by
  unfold stepConn at h
  split at h
  · cases h; rfl
  · split at h
    · cases h; rfl
    · cases h

theorem addToWaitlist_inv (st : DBState) (ctx : AddCtx) (h : EmailInv st) :
    EmailInv (addToWaitlist st ctx).2 := by
  unfold addToWaitlist
  by_cases hv : validateEmailJS ctx.email = true
  · rw [if_pos hv]
    cases hctx : ctx.email with
    | none => exact h
    | some email =>
        have hval : validateEmail email = true := by
          rw [hctx] at hv; exact hv
        by_cases hex :
            st.entries.any (fun x => x.email == normalizeEmail email) = true
        · simp only [hex, if_true]
          exact h
        · simp only [hex, if_false, Bool.false_eq_true, insertOne]
          have hnorm := normalized_stored hval
          have hnone : ∀ x ∈ st.entries, x.email ≠ normalizeEmail email := by
            intro x hx hcon
            exact hex (List.any_eq_true.mpr ⟨x, hx, beq_iff_eq.mpr hcon⟩)
          constructor
          · rw [List.pairwise_append]
            refine ⟨h.1, List.pairwise_singleton _ _, ?_⟩
            intro a ha b hb
            simp only [List.mem_singleton] at hb
            subst hb
            simp only
            rw [emailInv_norm_fixed h ha, normalizeEmail,
                hnorm.1, hnorm.2]
            exact hnone a ha
          · intro e he
            rcases List.mem_append.mp he with h1 | h1
            · exact h.2 e h1
            · simp only [List.mem_singleton] at h1
              subst h1
              exact ⟨hnorm.1, hnorm.2⟩
  · rw [if_neg hv]
    exact h

theorem step_inv (st : DBState) (op : Op) (h : EmailInv st) :
    EmailInv (step st op) := by
  cases op with
  | add ctx connOk =>
      simp only [step]
      cases hsc : stepConn st connOk with
      | none => exact h
      | some st2 =>
          exact addToWaitlist_inv st2 ctx
            (emailInv_of_entries_eq (stepConn_entries hsc) h)
  | check email connOk =>
      simp only [step]
      cases hsc : stepConn st connOk with
      | none => exact h
      | some st2 =>
          exact emailInv_of_entries_eq (stepConn_entries hsc) h
  | stats connOk =>
      simp only [step]
      cases hsc : stepConn st connOk with
      | none => exact h
      | some st2 =>
          exact emailInv_of_entries_eq (stepConn_entries hsc) h
  | list q connOk =>
      simp only [step]
      cases hsc : stepConn st connOk with
      | none => exact h
      | some st2 =>
          exact emailInv_of_entries_eq (stepConn_entries hsc) h
  | health connOk =>
      simp only [step, healthIndexRoute]
      cases hsc : stepConn st connOk with
      | none => exact h
      | some st2 =>
          exact emailInv_of_entries_eq (stepConn_entries hsc) h

theorem foldl_step_inv (ops : List Op) :
    ∀ st : DBState, EmailInv st → EmailInv (ops.foldl step st) := by
  induction ops with
  | nil => intro st h; exact h
  | cons op rest ih =>
      intro st h
      exact ih (step st op) (step_inv st op h)

theorem emailInv_init : EmailInv initState := by
  refine ⟨List.Pairwise.nil, ?_⟩
  intro e he
  simp [initState] at he

/-! ## Branch lemmas for the add handler -/

theorem addToWaitlist_success {st : DBState} {ctx : AddCtx} {e : Str}
    (h1 : ctx.email = some e) (hv : validateEmail e = true)
    (habs : st.entries.any (fun x => x.email == normalizeEmail e) = false) :
    addToWaitlist st ctx =
      (⟨201, true, "Successfully added to waitlist".data,
        some (st.nextId, normalizeEmail e)⟩,
       { st with
          entries := st.entries ++
            [⟨normalizeEmail e, ctx.now, "landing-page".data, ctx.ip,
              ctx.userAgent, st.nextId⟩],
          nextId := st.nextId + 1 }) := by
  unfold addToWaitlist
  rw [h1]
  simp only [validateEmailJS, hv, if_true, habs, Bool.false_eq_true, if_false,
    insertOne]

theorem addToWaitlist_dup {st : DBState} {ctx : AddCtx} {e : Str}
    (h1 : ctx.email = some e) (hv : validateEmail e = true)
    (hex : st.entries.any (fun x => x.email == normalizeEmail e) = true) :
    addToWaitlist st ctx = (duplicatePrecheckRes, st) := by
  unfold addToWaitlist
  rw [h1]
  simp only [validateEmailJS, hv, if_true, hex]

/-! ## Claim theorems -/

/-- Claim C1: in every reachable store state the normalised emails of the
stored entries are pairwise distinct (at most one entry per normalised
email) and every stored email is already trimmed and lower-cased; every
operation (add, check, stats, list, health) preserves this invariant. -/
theorem claim_C1_store_invariant :
    (∀ st op, EmailInv st → EmailInv (step st op)) ∧
      ∀ ops : List Op, EmailInv (run ops) :=
  ⟨step_inv, fun ops => foldl_step_inv ops initState emailInv_init⟩

/-- Witness for C1: the invariant holds initially, and is carried through
one concrete add operation. -/
theorem claim_C1_store_invariant_witness :
    EmailInv initState ∧
      EmailInv (step initState
        (Op.add ⟨some "A@B.com".data, [], [], 0⟩ true)) :=
  ⟨⟨List.Pairwise.nil, fun e he => by simp [initState] at he⟩,
   claim_C1_store_invariant.1 initState
     (Op.add ⟨some "A@B.com".data, [], [], 0⟩ true)
     ⟨List.Pairwise.nil, fun e he => by simp [initState] at he⟩⟩

/-- Claim C2 as stated is false on the code: `"A@B.com "` does not pass
validation (the regex rejects whitespace and runs before `trim()`), so
submitting `"A@B.com "` then `"a@b.com"` yields 400 then 201 — not 201
then 409 — even though the two strings have the same normalised form. -/
theorem claim_C2_counterexample :
    normalizeEmail "A@B.com ".data = normalizeEmail "a@b.com".data ∧
      (addToWaitlist ⟨true, [], 0⟩
        ⟨some "A@B.com ".data, [], [], 0⟩).1.status = 400 ∧
      (addToWaitlist
        (addToWaitlist ⟨true, [], 0⟩ ⟨some "A@B.com ".data, [], [], 0⟩).2
        ⟨some "a@b.com".data, [], [], 1⟩).1.status = 201 := by
  decide

/-- Claim C2 (amended): whenever both submissions pass validation (which
excludes any whitespace) and have the same normalised form, and no entry
with that normalised email is stored yet, sequential submission yields
201 then 409.  In particular `"A@B.com"` and `"a@b.com"` collide. -/
theorem claim_C2_sequential_duplicate (st : DBState) (c1 c2 : AddCtx)
    (e1 e2 : Str)
    (h1 : c1.email = some e1) (h2 : c2.email = some e2)
    (hv1 : validateEmail e1 = true) (hv2 : validateEmail e2 = true)
    (hn : normalizeEmail e1 = normalizeEmail e2)
    (habs : st.entries.any (fun x => x.email == normalizeEmail e1) = false) :
    (addToWaitlist st c1).1.status = 201 ∧
      (addToWaitlist (addToWaitlist st c1).2 c2).1.status = 409 := by
  have hfirst := addToWaitlist_success h1 hv1 habs
  constructor
  · rw [hfirst]
  · have hex2 : (addToWaitlist st c1).2.entries.any
        (fun x => x.email == normalizeEmail e2) = true := by
      rw [hfirst, ← hn]
      simp [List.any_append]
    rw [addToWaitlist_dup h2 hv2 hex2]
    rfl

/-- Witness for C2 (amended) at `"A@B.com"` then `"a@b.com"` on an empty
store. -/
theorem claim_C2_sequential_duplicate_witness :
    validateEmail "A@B.com".data = true ∧
      validateEmail "a@b.com".data = true ∧
      normalizeEmail "A@B.com".data = normalizeEmail "a@b.com".data ∧
      ((addToWaitlist ⟨true, [], 0⟩
          ⟨some "A@B.com".data, [], [], 0⟩).1.status = 201 ∧
        (addToWaitlist
          (addToWaitlist ⟨true, [], 0⟩ ⟨some "A@B.com".data, [], [], 0⟩).2
          ⟨some "a@b.com".data, [], [], 1⟩).1.status = 409) :=
  ⟨by decide, by decide, by decide,
   claim_C2_sequential_duplicate ⟨true, [], 0⟩
     ⟨some "A@B.com".data, [], [], 0⟩ ⟨some "a@b.com".data, [], [], 1⟩
     "A@B.com".data "a@b.com".data rfl rfl (by decide) (by decide)
     (by decide) (by decide)⟩

/-- Claim C3: the 409 response produced by the pre-insert existence check
and the 409 response produced by the duplicate-key (code 11000) catch
branch are the same response object, and every 409 the add handler emits
is exactly that response. -/
theorem claim_C3_duplicate_paths_agree :
    duplicatePrecheckRes = duplicateKeyRes ∧
      ∀ st ctx, (addToWaitlist st ctx).1.status = 409 →
        (addToWaitlist st ctx).1 = duplicatePrecheckRes := by
  refine ⟨rfl, ?_⟩
  intro st ctx h
  by_cases hv : validateEmailJS ctx.email = true
  · rw [addToWaitlist, if_pos hv] at h ⊢
    cases hctx : ctx.email with
    | none => rw [hctx] at h; simp [serverErrorRes] at h
    | some e =>
        rw [hctx] at h
        by_cases hex :
            st.entries.any (fun x => x.email == normalizeEmail e) = true
        · simp only [hex, if_true]
        · rw [Bool.not_eq_true] at hex
          simp only [hex, Bool.false_eq_true, if_false, insertOne] at h
          simp at h
  · rw [addToWaitlist, if_neg hv] at h
    simp [invalidEmailRes] at h

/-- Witness for C3: a duplicate submission against a store already holding
`a@b.com` answers 409, and that response is the common duplicate
response. -/
theorem claim_C3_duplicate_paths_agree_witness :
    (addToWaitlist ⟨true, [⟨"a@b.com".data, 0, [], [], [], 0⟩], 1⟩
        ⟨some "a@b.com".data, [], [], 1⟩).1.status = 409 ∧
      (addToWaitlist ⟨true, [⟨"a@b.com".data, 0, [], [], [], 0⟩], 1⟩
        ⟨some "a@b.com".data, [], [], 1⟩).1 = duplicatePrecheckRes :=
  ⟨by decide,
   claim_C3_duplicate_paths_agree.2
     ⟨true, [⟨"a@b.com".data, 0, [], [], [], 0⟩], 1⟩
     ⟨some "a@b.com".data, [], [], 1⟩ (by decide)⟩

/-- Claim C4 as stated is false on the code: the spec's shape — one `@`,
no whitespace, at least one `.` somewhere in the domain — accepts
`"a@.c"`, but the regex `/^[^\s@]+@[^\s@]+\.[^\s@]+$/` requires at least
one domain character before a dot, so `validateEmail` rejects it. -/
theorem claim_C4_counterexample :
    specValidEmail "a@.c".data = true ∧
      validateEmail "a@.c".data = false := by
  decide

/-- Claim C4 (amended): `validateEmail s` returns true iff `s` has the
shape `local@domain` where the local part is nonempty with no whitespace
and no `@`, and the domain splits as `X.Y` with `X` and `Y` nonempty and
free of whitespace and `@` — i.e. the domain has a `.` that is neither
its first nor its last character. -/
theorem claim_C4_regex_shape (s : Str) :
    validateEmail s = true ↔
      ∃ l x y, s = l ++ '@' :: (x ++ '.' :: y) ∧ l ≠ [] ∧ x ≠ [] ∧ y ≠ [] ∧
        (∀ c ∈ l, isAtom c = true) ∧ (∀ c ∈ x, isAtom c = true) ∧
        (∀ c ∈ y, isAtom c = true) :=
  validateEmail_shape s

/-- Claim C10: a request body without an email field (`undefined`) makes
both POST handlers answer 400 with `success: false`; the store is left
unchanged (the check handler is read-only by construction). -/
theorem claim_C10_undefined_email (st : DBState) (ip ua : Str) (now : Nat) :
    (addToWaitlist st ⟨none, ip, ua, now⟩).1.status = 400 ∧
      (addToWaitlist st ⟨none, ip, ua, now⟩).1.success = false ∧
      (addToWaitlist st ⟨none, ip, ua, now⟩).2 = st ∧
      (checkEmail st none).status = 400 ∧
      (checkEmail st none).success = false := by
  have hv : validateEmailJS none = false := by decide
  unfold addToWaitlist checkEmail
  simp [hv, invalidEmailRes]

/-! ## Branch lemmas for the listing handler -/

theorem parseIntOr_of_ne_zero {d n : Int} (h : n ≠ 0) :
    parseIntOr d (some n) = n := by
  simp [parseIntOr, h]

theorem listHandler_eq_of_nonneg (st : DBState) (q : ListQuery)
    (h : 0 ≤ (parseIntOr 1 q.page - 1) * min (parseIntOr 50 q.limit) 100) :
    listHandler st q = .ok
      ((((sortEntries (parseSortBy q.sortBy) (listSortDir q.sortOrder)
            st.entries).drop
            ((parseIntOr 1 q.page - 1) *
              min (parseIntOr 50 q.limit) 100).toNat).take
            (min (parseIntOr 50 q.limit) 100).natAbs).map projectEntry)
      ⟨parseIntOr 1 q.page,
       jsCeilDiv st.entries.length (min (parseIntOr 50 q.limit) 100),
       st.entries.length,
       decide (parseIntOr 1 q.page <
         jsCeilDiv st.entries.length (min (parseIntOr 50 q.limit) 100)),
       decide (parseIntOr 1 q.page > 1),
       min (parseIntOr 50 q.limit) 100⟩
      ⟨parseSortBy q.sortBy,
       if listSortDir q.sortOrder == 1 then "asc".data else "desc".data⟩ := by
  simp only [listHandler, runFind]
  rw [if_neg (not_lt.mpr h)]

theorem listHandler_eq_err_of_neg (st : DBState) (q : ListQuery)
    (h : (parseIntOr 1 q.page - 1) * min (parseIntOr 50 q.limit) 100 < 0) :
    listHandler st q = .err 500 "Failed to get waitlist entries".data := by
  simp only [listHandler, runFind]
  rw [if_pos h]

/-- Claim C5 as stated is false for a requested limit of 0: `parseInt` of
`"0"` is falsy, so the handler substitutes the default 50 instead of the
clamp `min 0 100 = 0` — a one-entry store yields one entry (and echoes
limit 50), not zero entries. -/
theorem claim_C5_counterexample :
    listHandler ⟨true, [⟨"a@b.com".data, 0, [], [], [], 0⟩], 1⟩
        ⟨some 1, some 0, none, none⟩ =
      .ok [⟨0, "a@b.com".data, 0, []⟩] ⟨1, 1, 1, false, false, 50⟩
        ⟨"createdAt".data, "desc".data⟩ ∧
      min (0 : Int) 100 = 0 := by
  decide

/-- Claim C5 (amended): for a limit that parses to a positive integer `n`
and a page that parses to a positive integer `p`, the listing succeeds,
echoes the effective limit `min n 100`, returns at most `min n 100`
(hence at most 100, and at most `n`) entries, and its `i`-th entry is
the sorted store's entry at offset `(p-1)*min n 100 + i`; an absent,
zero or non-numeric limit falls back to the default 50 before
clamping. -/
theorem claim_C5_limit_clamp (st : DBState) (p n : Int) (sb so : Option Str)
    (hp : 1 ≤ p) (hn : 1 ≤ n) :
    ∃ es pag sor,
      listHandler st ⟨some p, some n, sb, so⟩ = .ok es pag sor ∧
        pag.limit = min n 100 ∧
        es.length ≤ 100 ∧ es.length ≤ n.toNat ∧
        ∀ (i : Nat) (hi : i < es.length)
            (hj : ((p - 1) * min n 100).toNat + i <
              (sortEntries (parseSortBy sb) (listSortDir so)
                st.entries).length),
          es.get ⟨i, hi⟩ =
            projectEntry ((sortEntries (parseSortBy sb) (listSortDir so)
              st.entries).get
                ⟨((p - 1) * min n 100).toNat + i, hj⟩) := by
  have hpe : parseIntOr 1 (some p) = p := parseIntOr_of_ne_zero (by omega)
  have hne : parseIntOr 50 (some n) = n := parseIntOr_of_ne_zero (by omega)
  have hL1 : (1 : Int) ≤ min n 100 := le_min hn (by omega)
  have hL2 : min n 100 ≤ 100 := min_le_right n 100
  have hL3 : min n 100 ≤ n := min_le_left n 100
  have hskip : 0 ≤ (parseIntOr 1 (some p) - 1) *
      min (parseIntOr 50 (some n)) 100 := by
    rw [hpe, hne]
    exact mul_nonneg (by omega) (by omega)
  have heq := listHandler_eq_of_nonneg st ⟨some p, some n, sb, so⟩ hskip
  simp only [hpe, hne] at heq
  have htk := List.length_take_le (min n 100).natAbs
    ((sortEntries (parseSortBy sb) (listSortDir so) st.entries).drop
      ((p - 1) * min n 100).toNat)
  refine ⟨_, _, _, heq, rfl, ?_, ?_, ?_⟩
  · rw [List.length_map]
    omega
  · rw [List.length_map]
    omega
  · intro i hi hj
    simp only [List.get_eq_getElem, List.getElem_map, List.getElem_take,
      List.getElem_drop]

/-- Witness for C5 (amended) at page 2, limit 1000 on an empty store: the
effective limit is 100. -/
theorem claim_C5_limit_clamp_witness :
    (1 : Int) ≤ 2 ∧ (1 : Int) ≤ 1000 ∧
      (∃ es pag sor,
        listHandler ⟨true, [], 0⟩ ⟨some 2, some 1000, none, none⟩ =
            .ok es pag sor ∧
          pag.limit = min 1000 100 ∧
          es.length ≤ 100 ∧ es.length ≤ (1000 : Int).toNat ∧
          ∀ (i : Nat) (hi : i < es.length)
              (hj : (((2 : Int) - 1) * min 1000 100).toNat + i <
                (sortEntries (parseSortBy none) (listSortDir none)
                  (⟨true, [], 0⟩ : DBState).entries).length),
            es.get ⟨i, hi⟩ =
              projectEntry ((sortEntries (parseSortBy none) (listSortDir none)
                (⟨true, [], 0⟩ : DBState).entries).get
                  ⟨(((2 : Int) - 1) * min 1000 100).toNat + i, hj⟩)) :=
  ⟨by decide, by decide,
   claim_C5_limit_clamp ⟨true, [], 0⟩ 2 1000 none none (by decide) (by decide)⟩

/-- Claim C6 as stated is false: page = -1 is below 1, yet it is not
treated as page 1 — the skip becomes (-1-1)*50 = -100, the store rejects
the negative skip, and the handler answers the 500 error envelope, which
differs from the page = 1 response. -/
theorem claim_C6_counterexample :
    listHandler ⟨true, [], 0⟩ ⟨some (-1), none, none, none⟩ ≠
        listHandler ⟨true, [], 0⟩ ⟨some 1, none, none, none⟩ ∧
      listHandler ⟨true, [], 0⟩ ⟨some (-1), none, none, none⟩ =
        .err 500 "Failed to get waitlist entries".data := by
  decide

/-- Claim C6 (amended): a page parameter equal to 0 or absent/non-numeric
is treated as page 1 (the response is identical to page = 1); a negative
page is passed through, producing a negative skip and the 500
storage-error response whenever the effective limit is positive. -/
theorem claim_C6_page_default (st : DBState) (l : Option Int)
    (sb so : Option Str) :
    (listHandler st ⟨some 0, l, sb, so⟩ =
        listHandler st ⟨some 1, l, sb, so⟩) ∧
      (listHandler st ⟨none, l, sb, so⟩ =
        listHandler st ⟨some 1, l, sb, so⟩) ∧
      ∀ p : Int, p < 0 → 1 ≤ parseIntOr 50 l →
        listHandler st ⟨some p, l, sb, so⟩ =
          .err 500 "Failed to get waitlist entries".data := by
  refine ⟨rfl, rfl, ?_⟩
  intro p hp hl
  apply listHandler_eq_err_of_neg
  show (parseIntOr 1 (some p) - 1) * min (parseIntOr 50 l) 100 < 0
  have hpe : parseIntOr 1 (some p) = p := parseIntOr_of_ne_zero (by omega)
  rw [hpe]
  have hL1 : (1 : Int) ≤ min (parseIntOr 50 l) 100 := le_min hl (by omega)
  exact mul_neg_of_neg_of_pos (by omega) (by omega)

/-- Witness for C6 (amended): page 0 and page 1 coincide on a concrete
store, and page -1 yields the 500 error there. -/
theorem claim_C6_page_default_witness :
    (listHandler ⟨true, [], 0⟩ ⟨some 0, none, none, none⟩ =
        listHandler ⟨true, [], 0⟩ ⟨some 1, none, none, none⟩) ∧
      ((-1 : Int) < 0 ∧ (1 : Int) ≤ parseIntOr 50 none ∧
        listHandler ⟨true, [], 0⟩ ⟨some (-1), none, none, none⟩ =
          .err 500 "Failed to get waitlist entries".data) :=
  ⟨(claim_C6_page_default ⟨true, [], 0⟩ none none none).1,
   by decide, by decide,
   (claim_C6_page_default ⟨true, [], 0⟩ none none none).2.2 (-1)
     (by decide) (by decide)⟩

/-- Claim C9 as stated is false for the serverless entry point
src/api/index.js: when no connection is cached and the lazy connection
attempt fails, the `ensureDBConnection` middleware answers the health
request itself with a 500 failure envelope carrying `success: false` and
no `database` field at all. -/
theorem claim_C9_counterexample :
    (healthIndexRoute initState false).1.status = 500 ∧
      (healthIndexRoute initState false).1.success = some false ∧
      (healthIndexRoute initState false).1.database = none := by
  decide

/-- Claim C9 (amended): the src/server.js health handler never fails and
reports `Connected` exactly when the connection is established
(`Disconnected` otherwise); the src/api/index.js health route answers
200 with `Connected` whenever a connection is already cached or the lazy
attempt succeeds, and fails only in the remaining case. -/
theorem claim_C9_health_reporting (st : DBState) (connOk : Bool) :
    ((healthServer st).status = 200 ∧
      (healthServer st).database =
        some (if st.connected then "Connected".data
              else "Disconnected".data)) ∧
      (st.connected = true ∨ connOk = true →
        (healthIndexRoute st connOk).1.status = 200 ∧
        (healthIndexRoute st connOk).1.database = some "Connected".data) := by
  refine ⟨⟨rfl, rfl⟩, ?_⟩
  intro h
  unfold healthIndexRoute stepConn
  by_cases hc : st.connected = true
  · simp [hc]
  · rw [Bool.not_eq_true] at hc
    rcases h with h | h
    · rw [hc] at h; cases h
    · simp [hc, h]

/-- Witness for C9 (amended): a successful lazy connection on a fresh
state yields 200/Connected. -/
theorem claim_C9_health_reporting_witness :
    (initState.connected = true ∨ (true : Bool) = true) ∧
      ((healthIndexRoute initState true).1.status = 200 ∧
        (healthIndexRoute initState true).1.database =
          some "Connected".data) :=
  ⟨Or.inr rfl,
   (claim_C9_health_reporting initState true).2 (Or.inr rfl)⟩

/-- Claim C7: the sort direction passed to the store is ascending (1)
exactly when the sortOrder parameter equals 'asc' and descending (-1) in
every other case, and a successful listing echoes 'asc' or 'desc'
accordingly in its sorting metadata. -/
theorem claim_C7_sort_direction (st : DBState) (q : ListQuery)
    (es : List Projected) (pag : Pagination) (sor : SortingEcho)
    (h : listHandler st q = .ok es pag sor) :
    (listSortDir q.sortOrder = 1 ↔ q.sortOrder = some "asc".data) ∧
      (listSortDir q.sortOrder = -1 ↔ q.sortOrder ≠ some "asc".data) ∧
      (sor.sortOrder = "asc".data ↔ q.sortOrder = some "asc".data) ∧
      (sor.sortOrder = "desc".data ↔ q.sortOrder ≠ some "asc".data) := by
  have hsor : sor =
      ⟨parseSortBy q.sortBy,
       if listSortDir q.sortOrder == 1 then "asc".data else "desc".data⟩ := by
    by_cases hskip : 0 ≤ (parseIntOr 1 q.page - 1) *
        min (parseIntOr 50 q.limit) 100
    · rw [listHandler_eq_of_nonneg st q hskip] at h
      injection h with h1 h2 h3
      exact h3.symm
    · rw [listHandler_eq_err_of_neg st q (by omega)] at h
      cases h
  subst hsor
  by_cases hq : q.sortOrder = some "asc".data
  · have hdir : listSortDir q.sortOrder = 1 := by
      simp [listSortDir, hq]
    rw [hdir]
    simp only [hq]
    refine ⟨by simp, by simp, by simp, by simp⟩
  · have hdir : listSortDir q.sortOrder = -1 := by
      simp only [listSortDir]
      rw [if_neg (by simpa using hq)]
    rw [hdir]
    have hne : ((-1 : Int) == 1) = false := by decide
    rw [hne]
    simp only [if_false, Bool.false_eq_true]
    refine ⟨by constructor <;> intro hcon <;> simp_all,
      by simp [hq], ?_, by simp [hq]⟩
    constructor
    · intro hcon
      exact absurd hcon (by decide)
    · intro hcon
      exact absurd hcon hq

/-- Witness for C7: a concrete successful listing with no sortOrder
parameter echoes 'desc'. -/
theorem claim_C7_sort_direction_witness :
    listHandler ⟨true, [], 0⟩ ⟨none, none, none, none⟩ =
        .ok [] ⟨1, 0, 0, false, false, 50⟩
          ⟨"createdAt".data, "desc".data⟩ ∧
      ((listSortDir none = 1 ↔ (none : Option Str) = some "asc".data) ∧
        (listSortDir none = -1 ↔ (none : Option Str) ≠ some "asc".data) ∧
        ((⟨"createdAt".data, "desc".data⟩ : SortingEcho).sortOrder =
            "asc".data ↔ (none : Option Str) = some "asc".data) ∧
        ((⟨"createdAt".data, "desc".data⟩ : SortingEcho).sortOrder =
            "desc".data ↔ (none : Option Str) ≠ some "asc".data)) :=
  ⟨by decide,
   claim_C7_sort_direction ⟨true, [], 0⟩ ⟨none, none, none, none⟩
     [] ⟨1, 0, 0, false, false, 50⟩ ⟨"createdAt".data, "desc".data⟩
     (by decide)⟩

/-- Claim C8: every entry of a successful listing response is the
projection of some stored entry, and that projection consists of exactly
the id, email, createdAt and source fields (the `Projected` record has
no provenance fields, so ipAddress and userAgent are never present). -/
theorem claim_C8_listing_projection (st : DBState) (q : ListQuery)
    (es : List Projected) (pag : Pagination) (sor : SortingEcho)
    (h : listHandler st q = .ok es pag sor) :
    ∀ r ∈ es, ∃ e ∈ st.entries,
      r = projectEntry e ∧ r = ⟨e.id, e.email, e.createdAt, e.source⟩ := by
  have hes : es =
      (((sortEntries (parseSortBy q.sortBy) (listSortDir q.sortOrder)
          st.entries).drop
          ((parseIntOr 1 q.page - 1) *
            min (parseIntOr 50 q.limit) 100).toNat).take
          (min (parseIntOr 50 q.limit) 100).natAbs).map projectEntry := by
    by_cases hskip : 0 ≤ (parseIntOr 1 q.page - 1) *
        min (parseIntOr 50 q.limit) 100
    · rw [listHandler_eq_of_nonneg st q hskip] at h
      injection h with h1 h2 h3
      exact h1.symm
    · rw [listHandler_eq_err_of_neg st q (by omega)] at h
      cases h
  subst hes
  intro r hr
  rcases List.mem_map.mp hr with ⟨e, he, rfl⟩
  have he2 : e ∈ sortEntries (parseSortBy q.sortBy) (listSortDir q.sortOrder)
      st.entries :=
    List.drop_subset _ _ (List.take_subset _ _ he)
  have he3 : e ∈ st.entries :=
    (List.perm_insertionSort _ st.entries).subset he2
  exact ⟨e, he3, rfl, rfl⟩

/-- Witness for C8: the single projected entry of a concrete listing is
the projection of the single stored entry. -/
theorem claim_C8_listing_projection_witness :
    listHandler ⟨true, [⟨"a@b.com".data, 5, "landing-page".data,
          "ip".data, "ua".data, 0⟩], 1⟩ ⟨none, none, none, none⟩ =
        .ok [⟨0, "a@b.com".data, 5, "landing-page".data⟩]
          ⟨1, 1, 1, false, false, 50⟩ ⟨"createdAt".data, "desc".data⟩ ∧
      ∃ e ∈ (⟨true, [⟨"a@b.com".data, 5, "landing-page".data,
          "ip".data, "ua".data, 0⟩], 1⟩ : DBState).entries,
        (⟨0, "a@b.com".data, 5, "landing-page".data⟩ : Projected) =
            projectEntry e ∧
          (⟨0, "a@b.com".data, 5, "landing-page".data⟩ : Projected) =
            ⟨e.id, e.email, e.createdAt, e.source⟩ :=
  ⟨by decide,
   claim_C8_listing_projection
     ⟨true, [⟨"a@b.com".data, 5, "landing-page".data,
       "ip".data, "ua".data, 0⟩], 1⟩
     ⟨none, none, none, none⟩
     [⟨0, "a@b.com".data, 5, "landing-page".data⟩]
     ⟨1, 1, 1, false, false, 50⟩ ⟨"createdAt".data, "desc".data⟩
     (by decide) ⟨0, "a@b.com".data, 5, "landing-page".data⟩ (by decide)⟩
